import Mathlib

/-!
Shallow embedding of the MMM-ImmichTileSlideShow back-end data-adapter
(`immichApi.js` and the data-shaping part of `node_helper.js`).

JavaScript conventions modelled explicitly:
* a missing/`null`/`undefined` string field is modelled as `""` where the code
  only ever uses the value through `x || y` falsy-chaining (`jsOrS`);
* `x || y` on strings is `jsOrS`, on numeric sizes `jsSizeOr` (`0` is falsy);
* object literals with spreads are association lists with last-write-wins
  lookup (`jsObjGet`), mirroring the order in which keys are written;
* JS `Date` arithmetic is modelled with proleptic-Gregorian civil-date
  conversions, assuming the process runs in the UTC timezone (so
  `new Date(y,m,d).toISOString()` starts with the civil date `y-m-d`).
-/

namespace ImmichTile

/-! ## Small JavaScript-style string helpers -/

/-- JS `a || b` for strings, where the empty string is falsy. -/
def jsOrS (a b : String) : String := if a = "" then b else a

/-- Model of JS `toLowerCase()` on ASCII data: lowercase every character. -/
def lowerStr (s : String) : String := ⟨s.toList.map Char.toLower⟩

/-- Does `pat` occur at the head of `s`? -/
def leadEqL : List Char → List Char → Bool
  | [], _ => true
  | _ :: _, [] => false
  | p :: ps, c :: cs => p = c && leadEqL ps cs

/-- Does `pat` occur anywhere in `s` (as a contiguous run)? -/
def hasSubL (pat : List Char) : List Char → Bool
  | [] => pat.isEmpty
  | c :: cs => leadEqL pat (c :: cs) || hasSubL pat cs

/-- Model of JS `s.includes(pat)`: substring containment. -/
def strHasSub (s pat : String) : Bool := hasSubL pat.toList s.toList

/-! ## Extension filtering (`node_helper.js`, `hasValidExt`) -/

/-- `filename.split('.').pop()`: the (possibly empty) run of characters
after the last `.`, or the whole string when it has no `.`. -/
def lastDotComponent (s : String) : String :=
  ⟨(s.toList.reverse.takeWhile fun c => c ≠ '.').reverse⟩

/-- `node_helper.js` `hasValidExt(filename, validSet)`:
`if (!filename || !filename.includes('.')) return false;
 const ext = filename.split('.').pop().toLowerCase();
 return validSet.has(ext);` -/
def hasValidExt (filename : String) (validSet : List String) : Bool :=
  if filename = "" || !(filename.toList.contains '.') then false
  else validSet.contains (lowerStr (lastDotComponent filename))

/-! ## Asset and tile records -/

/-- The EXIF-like nested substructure of a raw asset; `dateTimeOriginal = ""`
models a missing/empty value (falsy in JS). -/
structure ExifInfo where
  dateTimeOriginal : String
  deriving Repr, DecidableEq

/-- A raw Immich asset as consumed by the pipeline. String fields use `""`
for a missing value, matching how the code reads them through `||` chains. -/
structure ImmichAsset where
  id : String
  originalFileName : String
  originalPath : String
  type : String
  exifInfo : Option ExifInfo
  fileCreatedAt : String
  fileModifiedAt : String
  albumName : String
  deriving Repr, DecidableEq

/-- The tile-media record sent to the front end (`toTileImage` output shape).
`posterSrc = none` models the image branch, whose object literal has no
`posterSrc` key. -/
structure TileMedia where
  kind : String
  src : String
  posterSrc : Option String
  title : String
  takenAt : Option String
  albumName : Option String
  deriving Repr, DecidableEq

/-- `immichApi.js` constant `IMMICH_PROXY_URL`. -/
def IMMICH_PROXY_URL : String := "/immichtilesslideshow/"

/-- `immichApi.js` constant `IMMICH_VIDEO_PROXY_URL`. -/
def IMMICH_VIDEO_PROXY_URL : String := "/immichtilesslideshow-video/"

/-- `immichApi.getImageLink(imageId)`. -/
def getImageLink (imageId : String) : String := IMMICH_PROXY_URL ++ imageId

/-- `immichApi.getVideoLink(imageId)`. -/
def getVideoLink (imageId : String) : String := IMMICH_VIDEO_PROXY_URL ++ imageId

/-- The JS regex replace `(name).replace(/\.[^.]+$/, '')`: strip a final
`.`-plus-one-or-more-non-dot-characters suffix, when one exists. -/
def stripLastExt (s : String) : String :=
  let rcs := s.toList.reverse
  let run := rcs.takeWhile (fun c => c ≠ '.')
  if 0 < run.length ∧ run.length < rcs.length then
    ⟨(rcs.drop (run.length + 1)).reverse⟩
  else s

/-- `node_helper.js` `toTileImage(img, immichApi, isVideo)`. -/
def toTileImage (img : ImmichAsset) (isVideo : Bool) : TileMedia :=
  let title := stripLastExt (jsOrS img.originalFileName "")
  let exifVal := match img.exifInfo with
    | some e => e.dateTimeOriginal
    | none => ""
  let takenAtS := jsOrS exifVal (jsOrS img.fileCreatedAt img.fileModifiedAt)
  let takenAt := if takenAtS = "" then none else some takenAtS
  let albumName := if img.albumName = "" then none else some img.albumName
  if isVideo then
    { kind := "video", src := getVideoLink img.id, posterSrc := some (getImageLink img.id),
      title := title, takenAt := takenAt, albumName := albumName }
  else
    { kind := "image", src := getImageLink img.id, posterSrc := none,
      title := title, takenAt := takenAt, albumName := albumName }

/-- The filter predicate of `_loadFromImmichImpl` (`node_helper.js`):
```
const name = img.originalPath || img.originalFileName || '';
const type = (img.type || '').toString().toLowerCase();
const isVideoByType = type.includes('video');
const isImageByType = type.includes('image');
const okImage = hasValidExt(name, validImageSet) || isImageByType;
const okVideo = (context.config.enableVideos === true) && (hasValidExt(name, validVideoSet) || isVideoByType);
return okImage || okVideo;
``` -/
def keepAsset (enableVideos : Bool) (validImageSet validVideoSet : List String)
    (img : ImmichAsset) : Bool :=
  let name := jsOrS img.originalPath (jsOrS img.originalFileName "")
  let type := lowerStr img.type
  let isVideoByType := strHasSub type "video"
  let isImageByType := strHasSub type "image"
  let okImage := hasValidExt name validImageSet || isImageByType
  let okVideo := enableVideos && (hasValidExt name validVideoSet || isVideoByType)
  okImage || okVideo

/-- The kind decision + mapping step of `_loadFromImmichImpl`:
`const isVideo = type.includes('video') || (!type && hasValidExt(name, validVideoSet));
 return toTileImage(img, immichApi, isVideo);` -/
def mapTile (validVideoSet : List String) (img : ImmichAsset) : TileMedia :=
  let name := jsOrS img.originalPath (jsOrS img.originalFileName "")
  let type := lowerStr img.type
  let isVideo := strHasSub type "video" || (type = "" && hasValidExt name validVideoSet)
  toTileImage img isVideo

/-! ## API levels and version negotiation (`immichApi.js`, `init`) -/

/-- The four API schema generations of `immichApi.apiUrls`. -/
inductive ApiLevel
  | v1_94
  | v1_106
  | v1_118
  | v1_133
  deriving Repr, DecidableEq

/-- The `previousVersion` pointer of each `apiUrls` entry
(`v1_94` has none). -/
def previousVersion : ApiLevel → Option ApiLevel
  | .v1_133 => some .v1_118
  | .v1_118 => some .v1_106
  | .v1_106 => some .v1_94
  | .v1_94 => none

/-- Position of a level in the fallback chain (used for termination). -/
def levelRank : ApiLevel → Nat
  | .v1_94 => 0
  | .v1_106 => 1
  | .v1_118 => 2
  | .v1_133 => 3

theorem previousVersion_rank {l p : ApiLevel} (h : previousVersion l = some p) :
    levelRank p < levelRank l := by
  cases l <;> simp [previousVersion] at h <;> subst h <;> decide

/-- Fuel-bounded walk of the `previousVersion` chain (the fuel
`levelRank l` always suffices because the rank strictly drops). -/
def chainFromAux : Nat → ApiLevel → List ApiLevel
  | 0, l => [l]
  | fuel + 1, l =>
    l :: (match previousVersion l with
      | some p => chainFromAux fuel p
      | none => [])

/-- The fallback chain starting at a level: the level itself followed by
all older levels in `previousVersion` order. -/
def chainFrom (l : ApiLevel) : List ApiLevel := chainFromAux (levelRank l) l

/-- The chain unfolds one `previousVersion` step at a time. -/
theorem chainFrom_head :
    ∀ l : ApiLevel, chainFrom l = l :: ((previousVersion l).elim [] chainFrom) := by
  intro l
  cases l <;> rfl

/-- A parsed `{major, minor, patch}` server-version body. A body the code
cannot parse is any triple with `major ≤ -1` (the only field the code ever
checks is `serverVersion.major > -1`). -/
structure VersionTriple where
  major : Int
  minor : Int
  patch : Int
  deriving Repr, DecidableEq

/-- Outcome of one GET against a level's server-version endpoint.
`ok status data` is any response with status in `[200,499)` (made
non-exceptional by `validateStatus`); `exn` is a network failure or 5xx,
which throws out of the surrounding `try`. -/
inductive ProbeResult
  | ok (status : Nat) (data : VersionTriple)
  | exn
  deriving Repr, DecidableEq

/-- The version-probe walk of `init` (lines 84–107), with the mutation of
`this.apiLevel` made explicit: returns the level the walk stopped at (the
final value of `this.apiLevel`) and the obtained body, if any.
* a 200 response stops the walk with its body;
* a non-200 response moves to `previousVersion` and retries, or stops with
  no body when the chain is exhausted;
* an exception aborts the whole `try` block, leaving no body. -/
def walkMut (probe : ApiLevel → ProbeResult) (l : ApiLevel) :
    ApiLevel × Option VersionTriple :=
  match probe l with
  | .ok status data =>
    if status = 200 then (l, some data)
    else
      match h : previousVersion l with
      | some p => walkMut probe p
      | none => (l, none)
  | .exn => (l, none)
termination_by levelRank l
decreasing_by exact previousVersion_rank h

/-- The version-range mapping of `init` (lines 109–116) applied to the
level the walk stopped at: explicit ranges for major 1 overwrite
`this.apiLevel`; every other parsable triple leaves it unchanged. -/
def selectLevel (answered : ApiLevel) (v : VersionTriple) : ApiLevel :=
  if v.major = 1 then
    if 106 ≤ v.minor ∧ v.minor < 118 then .v1_106
    else if v.minor < 106 then .v1_94
    else answered
  else answered

/-- The version-negotiation outcome of `init` starting from the current
`this.apiLevel`: `.error ()` models the
`throw new Error('Failed to get Immich version. Cannot proceed.')` path
(`serverVersion.major > -1` false), `.ok l` the resolved level. -/
def negotiate (probe : ApiLevel → ProbeResult) (start : ApiLevel) :
    Except Unit ApiLevel :=
  match walkMut probe start with
  | (lvl, some v) => if v.major > -1 then .ok (selectLevel lvl v) else .error ()
  | (_, none) => .error ()

/-- Does any endpoint in the fallback chain from `start` answer 200 with a
parsable (`major > -1`) version body? (The reading of claim C3's
"some server-version endpoint in the fallback chain yields a 200 response
with a parsable version".) -/
def chainHasParsable (probe : ApiLevel → ProbeResult) (start : ApiLevel) : Bool :=
  (chainFrom start).any fun l =>
    match probe l with
    | .ok status data => status = 200 && data.major > -1
    | .exn => false

/-- Mutable per-adapter negotiation state (`immichApi` object fields plus
registration counters for the two `expressApp.use` calls). -/
structure AdapterState where
  httpSet : Bool
  apiLevel : ApiLevel
  videoProxySetup : Bool
  imageRegCount : Nat
  videoRegCount : Nat
  deriving Repr, DecidableEq

/-- The state before any `init` call. -/
def initialAdapterState : AdapterState :=
  { httpSet := false, apiLevel := .v1_133, videoProxySetup := false,
    imageRegCount := 0, videoRegCount := 0 }

/-- One call of `immichApi.init(config, expressApp, force)`, as a state
transformer. The returned `Bool` is `true` when the call resolves and
`false` when it rejects (the negotiation `throw`). Effects mirror the code:
* the whole body runs only `if (this.http === null || force)`;
* the client is (re)built first (`httpSet := true`);
* the probe walk mutates `apiLevel` as it descends;
* on a parsable version the range mapping runs, then the image proxy is
  registered unconditionally and the video proxy only when
  `_videoProxySetup` is still false;
* on an unparsable/failed probe the function throws before either
  `expressApp.use` call. -/
def initStep (probe : ApiLevel → ProbeResult) (force : Bool)
    (s : AdapterState) : AdapterState × Bool :=
  if s.httpSet = false ∨ force = true then
    let s1 := { s with httpSet := true }
    match walkMut probe s1.apiLevel with
    | (lvl, some v) =>
      if v.major > -1 then
        let s2 := { s1 with apiLevel := selectLevel lvl v }
        let s3 := { s2 with imageRegCount := s2.imageRegCount + 1 }
        let s4 := if s3.videoProxySetup then s3
          else { s3 with videoProxySetup := true,
                         videoRegCount := s3.videoRegCount + 1 }
        (s4, true)
      else ({ s1 with apiLevel := lvl }, false)
    | (lvl, none) => ({ s1 with apiLevel := lvl }, false)
  else (s, true)

/-- A sequence of `init` calls (each with its own probe behaviour and
`force` flag) run against one adapter instance. -/
def runInits (calls : List ((ApiLevel → ProbeResult) × Bool)) : AdapterState :=
  calls.foldl (fun s c => (initStep c.1 c.2 s).1) initialAdapterState

/-! ## JS object literals with spreads (request bodies) -/

/-- A JSON scalar as needed by the request bodies. -/
inductive JVal
  | num (n : Int)
  | str (s : String)
  deriving Repr, DecidableEq

/-- A JS object literal, as the association list of its key writes in
source order (a spread writes the spread object's entries in place). -/
abbrev JObj := List (String × JVal)

/-- Reading a key from an object literal: the last write wins, exactly as
later keys/spreads overwrite earlier ones in JS. -/
def jsObjGet (o : JObj) (k : String) : Option JVal :=
  ((o.filter fun e => e.1 = k).getLast?).map (·.2)

/-- JS `size || d` where `size` is a possibly-missing number: `null`,
`undefined` and `0` are all falsy. -/
def jsSizeOr (size : Option Int) (d : Int) : Int :=
  match size with
  | some n => if n = 0 then d else n
  | none => d

/-- `searchAssets` body (line 252): `{ ...(query || {}), size: size || 100 }`. -/
def searchBody (query : JObj) (size : Option Int) : JObj :=
  query ++ [("size", .num (jsSizeOr size 100))]

/-- `randomSearchAssets` body (line 266): `{ size: size || 100, ...(query || {}) }`. -/
def randomBody (size : Option Int) (query : JObj) : JObj :=
  ("size", JVal.num (jsSizeOr size 100)) :: query

/-- Per-year `anniversarySearchAssets` body (lines 298–303):
`{ ...(query || {}), size: querySize || 100, takenAfter: ..., takenBefore: ... }`. -/
def annivBody (query : JObj) (querySize : Option Int)
    (takenAfter takenBefore : String) : JObj :=
  query ++ [("size", .num (jsSizeOr querySize 100)),
            ("takenAfter", .str takenAfter), ("takenBefore", .str takenBefore)]

/-! ## Fetch operations -/

/-- Outcome of one data request: a response with status and decoded JSON
payload, or a thrown transport error. -/
inductive FetchResult (α : Type)
  | ok (status : Nat) (data : α)
  | exn
  deriving Repr, DecidableEq

/-- A fetch result that carries no usable data: non-200 status or a thrown
error. -/
def FetchResult.isFail {α : Type} : FetchResult α → Bool
  | .ok status _ => status ≠ 200
  | .exn => true

/-- `searchAssets` (one POST, result extraction collapsed to the decoded
asset list): 200 yields the decoded list, anything else is caught/logged
and yields `[]`. -/
def searchAssets {α : Type} (resp : FetchResult (List α)) : List α :=
  match resp with
  | .ok status data => if status = 200 then data else []
  | .exn => []

/-- `randomSearchAssets` (one POST): 200 yields `response.data || []`,
anything else is caught/logged and yields `[]`. -/
def randomSearchAssets {α : Type} (resp : FetchResult (List α)) : List α :=
  match resp with
  | .ok status data => if status = 200 then data else []
  | .exn => []

/-- `getAlbumNameToIdMap`: list albums once, then `map.set(name, id)` per
album in response order (last write wins). On non-200 or exception the map
stays empty. The map is modelled as the album list itself with a
last-write-wins lookup. -/
def getAlbumNameToIdMap (resp : FetchResult (List (String × String))) :
    List (String × String) :=
  match resp with
  | .ok status albums => if status = 200 then albums else []
  | .exn => []

/-- `Map.has`/`Map.get` with `Map.set` last-write-wins semantics. -/
def albumMapGet (albums : List (String × String)) (name : String) :
    Option String :=
  ((albums.filter fun e => e.1 = name).getLast?).map (·.2)

/-- `findAlbumIds(albumNames)`: resolve each name against the map; a
missing name is logged and skipped, a found one is concatenated. -/
def findAlbumIds (resp : FetchResult (List (String × String)))
    (albumNames : List String) : List String :=
  let albumMap := getAlbumNameToIdMap resp
  albumNames.foldl
    (fun ids name =>
      match albumMapGet albumMap name with
      | some id => ids ++ [id]
      | none => ids)
    []

/-- `getMemoryLaneAssets(numDays)`, instrumented with the list of issued
requests. `fetch i` is the response of the request for the day `today - i`
(the loop starts at `today` and decrements by one day per iteration).
A 200 response runs
`response.data.forEach((m) => (images = m.assets.concat(images)))`,
i.e. each group's assets are *prepended* to the accumulator; non-200 and
thrown errors are logged and skipped. -/
def getMemoryLaneRun {α : Type} (fetch : Nat → FetchResult (List (List α)))
    (numDays : Nat) : List Nat × List α :=
  (List.range numDays).foldl
    (fun acc i =>
      let requests := acc.1 ++ [i]
      match fetch i with
      | .ok status groups =>
        if status = 200 then (requests, groups.foldl (fun imgs g => g ++ imgs) acc.2)
        else (requests, acc.2)
      | .exn => (requests, acc.2))
    ([], [])

/-- The asset list returned by `getMemoryLaneAssets`. -/
def getMemoryLaneAssets {α : Type} (fetch : Nat → FetchResult (List (List α)))
    (numDays : Nat) : List α :=
  (getMemoryLaneRun fetch numDays).2

/-! ## Civil-date arithmetic (model of JS `Date` in UTC) -/

/-- A proleptic-Gregorian civil date; `month` is 1-based. -/
structure CivilDate where
  year : Int
  month : Int
  day : Int
  deriving Repr, DecidableEq

/-- Day count since 1970-01-01 of a civil date (Howard Hinnant's
`days_from_civil`; linear in `day`, so out-of-range days normalize exactly
as JS `new Date(y, m, d)` does). -/
def daysFromCivil (y m d : Int) : Int :=
  let yy := if m ≤ 2 then y - 1 else y
  let era := yy.ediv 400
  let yoe := yy - era * 400
  let mp := (m + 9).emod 12
  let doy := (153 * mp + 2).ediv 5 + d - 1
  let doe := yoe * 365 + yoe.ediv 4 - yoe.ediv 100 + doy
  era * 146097 + doe - 719468

/-- Civil date of a day count since 1970-01-01 (Hinnant's `civil_from_days`). -/
def civilFromDays (z0 : Int) : CivilDate :=
  let z := z0 + 719468
  let era := z.ediv 146097
  let doe := z - era * 146097
  let yoe := (doe - doe.ediv 1460 + doe.ediv 36524 - doe.ediv 146096).ediv 365
  let y := yoe + era * 400
  let doy := doe - (365 * yoe + yoe.ediv 4 - yoe.ediv 100)
  let mp := (5 * doy + 2).ediv 153
  let d := doy - (153 * mp + 2).ediv 5 + 1
  let m := mp + (if mp < 10 then 3 else -9)
  { year := if m ≤ 2 then y + 1 else y, month := m, day := d }

/-- JS `new Date(y, m, d)` (with 1-based `m` here): normalization of a
possibly out-of-range day-of-month. -/
def normDate (y m d : Int) : CivilDate := civilFromDays (daysFromCivil y m d)

/-- `date.setDate(date.getDate() + n)`: calendar shift by `n` days. -/
def addDays (dt : CivilDate) (n : Int) : CivilDate :=
  civilFromDays (daysFromCivil dt.year dt.month dt.day + n)

/-- Left-pad a numeral to two digits, as in ISO date fields. -/
def isoPad2 (n : Int) : String :=
  if n < 10 then "0" ++ toString n else toString n

/-- The date part of `Date.prototype.toISOString` (`YYYY-MM-DD`), for
4-digit years. -/
def isoDateStr (dt : CivilDate) : String :=
  toString dt.year ++ "-" ++ isoPad2 dt.month ++ "-" ++ isoPad2 dt.day

/-- The ascending year loop `for (let year = startYear; year <= endYear; year++)`. -/
def intRange (a b : Int) : List Int :=
  (List.range (b + 1 - a).toNat).map fun i => a + Int.ofNat i

/-- One issued anniversary random-search request. -/
structure AnnivRequest where
  year : Int
  body : JObj
  deriving Repr, DecidableEq

/-- `anniversarySearchAssets(datesBack, datesForward, startYear, endYear,
querySize, query)`, instrumented with the issued request list. `fetch y` is
the response of year `y`'s POST. Mirrors the code:
window `[today - datesBack, today + datesForward]`; per year `Y` the end
year becomes `Y+1` when the back-date's month/day sorts after the
forward-date's; a 200 appends `response.data` to the accumulator and any
other outcome is skipped (non-200 silently, exceptions via the per-year
`catch`). -/
def anniversarySearchAssets {α : Type} (today : CivilDate)
    (fetch : Int → FetchResult (List α))
    (datesBack datesForward startYear endYear : Int)
    (querySize : Option Int) (query : JObj) :
    List AnnivRequest × List α :=
  let startDate := addDays today (-datesBack)
  let endDate := addDays today datesForward
  let startMonth := startDate.month
  let startDay := startDate.day
  let endMonth := endDate.month
  let endDay := endDate.day
  (intRange startYear endYear).foldl
    (fun acc year =>
      let searchEndYear :=
        if startMonth > endMonth ∨ (startMonth = endMonth ∧ startDay > endDay)
        then year + 1 else year
      let yStart := normDate year startMonth startDay
      let yEnd := normDate searchEndYear endMonth endDay
      let body := annivBody query querySize
        (isoDateStr yStart ++ "T00:00:00.000Z")
        (isoDateStr yEnd ++ "T23:59:59.999Z")
      let reqs := acc.1 ++ [{ year := year, body := body }]
      match fetch year with
      | .ok status data => if status = 200 then (reqs, acc.2 ++ data) else (reqs, acc.2)
      | .exn => (reqs, acc.2))
    ([], [])

/-! ## Album mode (`node_helper.js` album branch) -/

/-- `getAlbumAssets(albumId)` with the album-name stamping elided: 200
yields the album's asset list, anything else is caught/logged and yields
`[]`. -/
def getAlbumAssets {α : Type} (resp : FetchResult (List α)) : List α :=
  match resp with
  | .ok status assets => if status = 200 then assets else []
  | .exn => []

/-- `getAlbumAssetsForAlbumIds(albumIds)`: concatenate the per-album lists
in input order (empty per-album results are skipped, which changes nothing). -/
def getAlbumAssetsForAlbumIds {α : Type}
    (fetchAlbum : String → FetchResult (List α)) (ids : List String) : List α :=
  ids.foldl
    (fun imgs id =>
      let current := getAlbumAssets (fetchAlbum id)
      if current.length ≠ 0 then imgs ++ current else imgs)
    []

/-- The album branch of `_loadFromImmichImpl`: resolve ids from names when
only names are configured, then
`if (albumIds) { fetch per id } else { log + best-effort album listing }`.
In JS an *array* — even an empty one — is truthy, so the `else` branch runs
only when neither `albumId` nor `albumName` is configured (`albumIds` still
`null`). The returned `Bool` records whether the diagnostic album listing
was attempted. -/
def albumMode {α : Type} (albumsResp : FetchResult (List (String × String)))
    (fetchAlbum : String → FetchResult (List α))
    (albumId : Option (List String)) (albumName : Option (List String)) :
    List α × Bool :=
  let albumIds : Option (List String) :=
    match albumName, albumId with
    | some names, none => some (findAlbumIds albumsResp names)
    | _, _ => albumId
  match albumIds with
  | some ids => (getAlbumAssetsForAlbumIds fetchAlbum ids, false)
  | none => ([], true)

/-! ## Sorting and shuffling (`node_helper.js`) -/

/-- The dynamic key read `(a[key] || '').toString()` for the two keys the
code passes to `sortByKey`. -/
def keyOf (t : TileMedia) (key : String) : String :=
  if key = "title" then t.title
  else if key = "takenAt" then
    match t.takenAt with
    | some s => s
    | none => ""
  else ""

/-- Lexicographic `≤` on character lists: the ascending order induced by
the JS comparator `av > bv ? 1 : av < bv ? -1 : 0` on strings (JS compares
strings lexicographically by code unit). -/
def jsLeChars : List Char → List Char → Bool
  | [], _ => true
  | _ :: _, [] => false
  | c :: cs, d :: ds => if c = d then jsLeChars cs ds else decide (c < d)

/-- JS string `≤` (negation of the comparator returning `1`). -/
def jsStrLe (a b : String) : Bool := jsLeChars a.toList b.toList

/-- `sortByKey(list, key)`: stable ascending sort by the string value of
`key` (the JS comparator returns `1`, `-1` or `0` from `>`/`<`; `Array.sort` is
stable, modelled by `mergeSort`). -/
def sortByKey (l : List TileMedia) (key : String) : List TileMedia :=
  l.mergeSort fun a b => jsStrLe (keyOf a key) (keyOf b key)

/-- The in-place swap `[list[i], list[j]] = [list[j], list[i]]`. -/
def swapElems {α : Type} (l : List α) (i j : Nat) : List α :=
  match l[i]?, l[j]? with
  | some a, some b => (l.set i b).set j a
  | _, _ => l

/-- The Fisher–Yates loop of `shuffle`, from index `i` down to `1`;
`rand i` determines `j = Math.floor(Math.random() * (i + 1))`, modelled as
`rand i % (i + 1)` so that `j ≤ i` for every `rand`. -/
def shuffleGo {α : Type} (rand : Nat → Nat) : List α → Nat → List α
  | l, 0 => l
  | l, i + 1 => shuffleGo rand (swapElems l (i + 1) (rand (i + 1) % (i + 2))) i

/-- `shuffle(list)`: Fisher–Yates over the whole list. -/
def shuffle {α : Type} (rand : Nat → Nat) (l : List α) : List α :=
  shuffleGo rand l (l.length - 1)

/-- The `switch (cfg.sortImagesBy)` step of `_loadFromImmichImpl`
(`name`, `created`/`modified`/`taken`, `random`, everything else keeps API
order). -/
def sortStep (sortImagesBy : String) (rand : Nat → Nat)
    (tiles : List TileMedia) : List TileMedia :=
  if sortImagesBy = "name" then sortByKey tiles "title"
  else if sortImagesBy = "created" ∨ sortImagesBy = "modified"
      ∨ sortImagesBy = "taken" then sortByKey tiles "takenAt"
  else if sortImagesBy = "random" then shuffle rand tiles
  else tiles

/-- The sort step followed by
`if (cfg.sortImagesDescending === true) tiles.reverse()`. -/
def applySort (sortImagesBy : String) (sortImagesDescending : Bool)
    (rand : Nat → Nat) (tiles : List TileMedia) : List TileMedia :=
  let t := sortStep sortImagesBy rand tiles
  if sortImagesDescending then t.reverse else t

/-! ## Claim C5: the filter step is a pure predicate -/

/-- Claim C5: the filter step is a pure predicate on each asset. An asset
is kept iff its name/path has a last-dot extension (case-insensitively) in
the image set or its type hint contains "image", or video support is on and
the extension is in the video set or the hint contains "video"; a name with
no `.` never matches by extension. Concretely: `photo.JPG` with empty hint
and image set `{jpg}` is kept; `clip.mov` with videos disabled is dropped
even though the video set contains `mov` (and would be kept with videos
enabled); `noext` with hint `image/jpeg` is kept. -/
theorem C5_filter_pure_predicate :
    (∀ (name : String) (vset : List String),
      name.toList.contains '.' = false → hasValidExt name vset = false) ∧
    keepAsset false ["jpg"] ["mov"]
      { id := "1", originalFileName := "photo.JPG", originalPath := "",
        type := "", exifInfo := none, fileCreatedAt := "",
        fileModifiedAt := "", albumName := "" } = true ∧
    keepAsset false ["jpg"] ["mov"]
      { id := "2", originalFileName := "clip.mov", originalPath := "",
        type := "", exifInfo := none, fileCreatedAt := "",
        fileModifiedAt := "", albumName := "" } = false ∧
    keepAsset true ["jpg"] ["mov"]
      { id := "2", originalFileName := "clip.mov", originalPath := "",
        type := "", exifInfo := none, fileCreatedAt := "",
        fileModifiedAt := "", albumName := "" } = true ∧
    keepAsset false ["jpg"] ["mov"]
      { id := "3", originalFileName := "noext", originalPath := "",
        type := "image/jpeg", exifInfo := none, fileCreatedAt := "",
        fileModifiedAt := "", albumName := "" } = true := by
  refine ⟨?_, by decide, by decide, by decide, by decide⟩
  intro name vset h
  have h' : ¬('.' ∈ name.data) := by simpa using h
  simp [hasValidExt, h']

/-- Witness for C5: the no-extension clause evaluated at `noext`. -/
theorem C5_filter_pure_predicate_witness :
    hasValidExt "noext" ["jpg"] = false :=
  C5_filter_pure_predicate.1 "noext" ["jpg"] (by decide)

/-! ## Claim C9: the mapping step -/

/-- The JS falsy-chain `(e || c || m) || null`, written as nested `if`s on
non-emptiness. -/
theorem jsOr_chain_eq (e c m : String) :
    (if jsOrS e (jsOrS c m) = "" then none else some (jsOrS e (jsOrS c m))) =
    (if e ≠ "" then some e
     else if c ≠ "" then some c
     else if m ≠ "" then some m
     else none) := by
  by_cases he : e = "" <;> by_cases hc : c = "" <;> by_cases hm : m = "" <;>
    simp [jsOrS, he, hc, hm]

/-- Claim C9: for every filtered asset the mapping step produces a record
whose title is the filename with its final extension stripped; whose
taken-at is the first present (non-empty) of the EXIF nested timestamp, the
file-created timestamp and the file-modified timestamp, absent when none is
present; whose kind is "video" iff the type hint contains "video" or the
hint is empty and the name/path extension is in the video set; and where
video records carry `src = video-prefix/id` plus `posterSrc =
image-prefix/id` while image records carry only `src = image-prefix/id`. -/
theorem C9_mapping_step (vset : List String) (img : ImmichAsset) :
    (mapTile vset img).title = stripLastExt (jsOrS img.originalFileName "") ∧
    (mapTile vset img).takenAt =
      (if (match img.exifInfo with
            | some e => e.dateTimeOriginal
            | none => "") ≠ "" then
        some (match img.exifInfo with
          | some e => e.dateTimeOriginal
          | none => "")
      else if img.fileCreatedAt ≠ "" then some img.fileCreatedAt
      else if img.fileModifiedAt ≠ "" then some img.fileModifiedAt
      else none) ∧
    ((mapTile vset img).kind = "video" ↔
      (strHasSub (lowerStr img.type) "video" = true ∨
        (lowerStr img.type = "" ∧
          hasValidExt (jsOrS img.originalPath (jsOrS img.originalFileName ""))
            vset = true))) ∧
    ((mapTile vset img).kind = "video" →
      (mapTile vset img).src = "/immichtilesslideshow-video/" ++ img.id ∧
      (mapTile vset img).posterSrc = some ("/immichtilesslideshow/" ++ img.id)) ∧
    ((mapTile vset img).kind = "image" →
      (mapTile vset img).src = "/immichtilesslideshow/" ++ img.id ∧
      (mapTile vset img).posterSrc = none) ∧
    ((mapTile vset img).kind = "video" ∨ (mapTile vset img).kind = "image") := by
  refine ⟨?_, ?_, ?_, ?_, ?_, ?_⟩ <;> simp only [mapTile, toTileImage] <;> split
  · rfl
  · rfl
  · exact jsOr_chain_eq _ _ _
  · exact jsOr_chain_eq _ _ _
  · rename_i h
    simp only [Bool.or_eq_true, Bool.and_eq_true, decide_eq_true_eq] at h
    exact ⟨fun _ => h, fun _ => rfl⟩
  · rename_i h
    rw [Bool.not_eq_true] at h
    simp only [Bool.or_eq_false_iff, Bool.and_eq_false_iff] at h
    constructor
    · intro hk
      simp at hk
    · intro hk
      exfalso
      rcases hk with hk | ⟨hp, hv⟩
      · simp [h.1] at hk
      · rcases h.2 with hd | hd
        · simp only [decide_eq_false_iff_not] at hd
          exact hd hp
        · simp [hd] at hv
  · intro _
    exact ⟨rfl, rfl⟩
  · intro hk
    simp at hk
  · intro hk
    simp at hk
  · intro _
    exact ⟨rfl, rfl⟩
  · exact Or.inl rfl
  · exact Or.inr rfl

/-- Witness for C9: the video branch of the mapping evaluated at a
concrete video asset. -/
theorem C9_mapping_step_witness :
    (mapTile ["mov"]
      { id := "v7", originalFileName := "clip.mov", originalPath := "",
        type := "VIDEO", exifInfo := none, fileCreatedAt := "2020",
        fileModifiedAt := "", albumName := "" }).src =
      "/immichtilesslideshow-video/" ++ "v7" ∧
    (mapTile ["mov"]
      { id := "v7", originalFileName := "clip.mov", originalPath := "",
        type := "VIDEO", exifInfo := none, fileCreatedAt := "2020",
        fileModifiedAt := "", albumName := "" }).posterSrc =
      some ("/immichtilesslideshow/" ++ "v7") :=
  (C9_mapping_step ["mov"]
    { id := "v7", originalFileName := "clip.mov", originalPath := "",
      type := "VIDEO", exifInfo := none, fileCreatedAt := "2020",
      fileModifiedAt := "", albumName := "" }).2.2.2.1 (by decide)

/-! ## Claim C10: request-body size precedence -/

/-- Last-write-wins lookup over concatenated writes: keys of the right
(later) part win. -/
theorem jsObjGet_append (a b : JObj) (k : String) :
    jsObjGet (a ++ b) k = (jsObjGet b k).or (jsObjGet a k) := by
  unfold jsObjGet
  rw [List.filter_append, List.getLast?_append]
  generalize (List.filter (fun e => e.1 = k) b).getLast? = x
  generalize (List.filter (fun e => e.1 = k) a).getLast? = y
  rcases x with _ | v <;> rcases y with _ | w <;> simp

/-- Claim C10, counterexample: in the per-year anniversary body the query
object is spread *first* and `size` written after it, so the configured
size (50) overrides a `size` key inside the caller's query (5) — the claim
asserts the opposite precedence for anniversary bodies. -/
theorem C10_counterexample :
    jsObjGet (annivBody [("size", JVal.num 5)] (some 50) "A" "B") "size" =
      some (JVal.num 50) ∧
    some (JVal.num 50) ≠ some (JVal.num 5) := by
  exact ⟨by decide, by decide⟩

/-- Claim C10 (amended): smart search writes `size` after the query spread
so the configured size always wins; random search writes `size` first and
spreads the query last, so a `size` key in the query wins there; the
anniversary bodies spread the query first and write `size` after it, so —
contrary to the original claim — the configured size also wins there; in
all three a falsy configured size (`0`/`null`/`undefined`) is replaced by
the default 100. -/
theorem C10_size_precedence :
    (∀ (q : JObj) (s : Option Int),
      jsObjGet (searchBody q s) "size" = some (.num (jsSizeOr s 100))) ∧
    (∀ (s : Option Int) (q : JObj),
      jsObjGet (randomBody s q) "size" =
        (jsObjGet q "size").or (some (.num (jsSizeOr s 100)))) ∧
    (∀ (q : JObj) (s : Option Int) (ta tb : String),
      jsObjGet (annivBody q s ta tb) "size" = some (.num (jsSizeOr s 100))) ∧
    (∀ d : Int, jsSizeOr none d = d) ∧
    (∀ d : Int, jsSizeOr (some 0) d = d) := by
  refine ⟨?_, ?_, ?_, fun d => rfl, fun d => rfl⟩
  · intro q s
    unfold searchBody
    rw [jsObjGet_append]
    simp [jsObjGet]
  · intro s q
    unfold randomBody
    rw [show (("size", JVal.num (jsSizeOr s 100)) :: q)
        = [("size", JVal.num (jsSizeOr s 100))] ++ q from rfl, jsObjGet_append]
    rcases jsObjGet q "size" with _ | v <;> simp [jsObjGet]
  · intro q s ta tb
    unfold annivBody
    rw [jsObjGet_append]
    simp [jsObjGet]

/-! ## Claim C8: album-name resolution failures -/

/-- The resolution fold of `findAlbumIds` appends exactly the resolvable
names' ids, in input order. -/
theorem findAlbumIds_eq_filterMap (resp : FetchResult (List (String × String)))
    (names : List String) :
    findAlbumIds resp names =
      names.filterMap (albumMapGet (getAlbumNameToIdMap resp)) := by
  unfold findAlbumIds
  suffices h : ∀ (acc : List String),
      names.foldl
        (fun ids name =>
          match albumMapGet (getAlbumNameToIdMap resp) name with
          | some id => ids ++ [id]
          | none => ids)
        acc = acc ++ names.filterMap (albumMapGet (getAlbumNameToIdMap resp)) by
    simpa using h []
  induction names with
  | nil => intro acc; simp
  | cons n ns ih =>
    intro acc
    simp only [List.foldl_cons, List.filterMap_cons]
    rcases h : albumMapGet (getAlbumNameToIdMap resp) n with _ | id <;>
      simp [h, ih, List.append_assoc]

/-- Claim C8, counterexample: album mode configured with
`albumName = ["Trip"]` against a map that has no "Trip" resolves to the
*empty array* of ids, which is JS-truthy, so the code takes the fetch
branch: it yields zero assets but never runs the diagnostic
album-listing branch (second component `false`), contrary to the claim. -/
theorem C8_counterexample :
    albumMode (FetchResult.ok 200 [("Vacation", "id-1")])
      (fun _ => FetchResult.ok 200 ([] : List Nat)) none (some ["Trip"]) =
      (([] : List Nat), false) ∧
    (albumMode (FetchResult.ok 200 [("Vacation", "id-1")])
      (fun _ => FetchResult.ok 200 ([] : List Nat)) none (some ["Trip"])).2 ≠ true := by
  exact ⟨rfl, by decide⟩

/-- Claim C8 (amended): every requested album name absent from the
name-to-id map is omitted from the resolved id list without throwing; when
name resolution yields no id at all the mode returns zero assets, but the
diagnostic listing of available albums is *not* attempted then (the empty
id array is truthy) — it is attempted exactly when neither an album id nor
an album name is configured. -/
theorem C8_album_resolution (α : Type)
    (albumsResp : FetchResult (List (String × String)))
    (fetchAlbum : String → FetchResult (List α)) (names : List String) :
    findAlbumIds albumsResp names =
      names.filterMap (albumMapGet (getAlbumNameToIdMap albumsResp)) ∧
    (findAlbumIds albumsResp names = [] →
      albumMode albumsResp fetchAlbum none (some names) = ([], false)) ∧
    albumMode albumsResp fetchAlbum none none = ([], true) := by
  refine ⟨findAlbumIds_eq_filterMap albumsResp names, ?_, rfl⟩
  intro h
  unfold albumMode
  simp only [h]
  rfl

/-- Witness for C8: a concrete unresolvable name yields zero assets and no
diagnostics. -/
theorem C8_album_resolution_witness :
    albumMode (FetchResult.ok 200 [("Holiday", "id-9")])
      (fun _ => FetchResult.ok 200 ([] : List Nat)) none (some ["Nope"]) =
      (([] : List Nat), false) :=
  (C8_album_resolution Nat (FetchResult.ok 200 [("Holiday", "id-9")])
    (fun _ => FetchResult.ok 200 ([] : List Nat)) ["Nope"]).2.1 (by decide)

/-! ## Claim C4: memory-lane request schedule and concatenation order -/

/-- The per-day group list a memory-lane response contributes: the groups
of a 200 response, nothing otherwise. -/
def dayGroups {α : Type} (fetch : Nat → FetchResult (List (List α)))
    (i : Nat) : List (List α) :=
  match fetch i with
  | .ok status groups => if status = 200 then groups else []
  | .exn => []

/-- Folding `images = g ++ images` over a group list reverses the group
order (keeping each group's internal order). -/
theorem foldl_prepend_eq {α : Type} (gs : List (List α)) (init : List α) :
    gs.foldl (fun imgs g => g ++ imgs) init = gs.reverse.flatten ++ init := by
  induction gs generalizing init with
  | nil => simp
  | cons g gs ih => simp [ih, List.append_assoc]

/-- Claim C4, counterexample: two days, day 0 (today) answering groups
`[[1],[2]]` and day 1 (yesterday) answering `[[3]]`. The claim's
concatenation order (day requested first first, per-day response order)
would be `[1, 2, 3]`, but `m.assets.concat(images)` *prepends* each group,
so the code returns `[3, 2, 1]`. -/
theorem C4_counterexample :
    getMemoryLaneAssets
      (fun i =>
        match i with
        | 0 => FetchResult.ok 200 [[1], [2]]
        | 1 => FetchResult.ok 200 [[3]]
        | _ => FetchResult.exn)
      2 = [3, 2, 1] ∧ ([3, 2, 1] : List Nat) ≠ [1, 2, 3] := by
  exact ⟨rfl, by decide⟩

/-- Claim C4 (amended): for every `numDays ≥ 0` the memory-lane fetch
issues exactly `numDays` requests, one per calendar day walking backward
from today inclusive (offsets `0, 1, …, numDays-1`); but the returned list
is the *reverse* concatenation at group granularity: it is the flattening
of the reversed sequence of all 200-day groups in encounter order, so
later-requested (older) days' assets come first and within a day the
groups are reversed, while each group's internal asset order is kept. -/
theorem C4_memory_lane (α : Type) (fetch : Nat → FetchResult (List (List α)))
    (numDays : Nat) :
    getMemoryLaneRun fetch numDays =
      (List.range numDays,
        ((List.range numDays).flatMap (dayGroups fetch)).reverse.flatten) := by
  induction numDays with
  | zero => rfl
  | succ n ih =>
    unfold getMemoryLaneRun at ih ⊢
    rw [List.range_succ, List.foldl_append, ih, List.flatMap_append,
      List.foldl_cons, List.foldl_nil]
    simp only [List.flatMap_cons, List.flatMap_nil, List.append_nil,
      List.reverse_append, List.flatten_append]
    unfold dayGroups
    split
    · rename_i status groups heq
      by_cases hs : status = 200 <;> simp [hs, foldl_prepend_eq]
    · simp

/-! ## Claim C2: proxy-route registration -/

/-- Bookkeeping invariant tying the video-registration count to the
`_videoProxySetup` flag. -/
def videoInv (s : AdapterState) : Prop :=
  s.videoRegCount = if s.videoProxySetup then 1 else 0

theorem initStep_videoInv (probe : ApiLevel → ProbeResult) (force : Bool)
    (s : AdapterState) (h : videoInv s) : videoInv (initStep probe force s).1 := by
  simp only [initStep]
  split
  · split
    · split
      · by_cases hv : s.videoProxySetup <;>
          simp only [videoInv, hv, if_true, if_false] at h ⊢ <;>
          simp [videoInv, h, hv]
      · exact h
    · exact h
  · exact h

theorem runInits_videoInv (calls : List ((ApiLevel → ProbeResult) × Bool)) :
    videoInv (runInits calls) := by
  unfold runInits
  suffices h : ∀ s, videoInv s →
      videoInv (calls.foldl (fun s c => (initStep c.1 c.2 s).1) s) from
    h initialAdapterState rfl
  induction calls with
  | nil => intro s hs; exact hs
  | cons c cs ih =>
    intro s hs
    exact ih _ (initStep_videoInv c.1 c.2 s hs)

/-- Claim C2, counterexample: two forced `init` calls against a server that
always answers 200 with version 1.140.0. Each pass executes the
unguarded `expressApp.use(IMMICH_PROXY_URL, …)`, so after the second
re-initialization the image-proxy route has been registered twice —
refuting "each of the two proxy routes is registered at most once". -/
theorem C2_counterexample :
    (runInits [(fun _ => ProbeResult.ok 200 ⟨1, 140, 0⟩, true),
               (fun _ => ProbeResult.ok 200 ⟨1, 140, 0⟩, true)]).imageRegCount = 2 ∧
    ¬((runInits [(fun _ => ProbeResult.ok 200 ⟨1, 140, 0⟩, true),
               (fun _ => ProbeResult.ok 200 ⟨1, 140, 0⟩, true)]).imageRegCount ≤ 1) := by
  have hw : walkMut (fun _ => ProbeResult.ok 200 ⟨1, 140, 0⟩) ApiLevel.v1_133 =
      (ApiLevel.v1_133, some ⟨1, 140, 0⟩) := by
    rw [walkMut]
    simp
  have h : (runInits [(fun _ => ProbeResult.ok 200 ⟨1, 140, 0⟩, true),
               (fun _ => ProbeResult.ok 200 ⟨1, 140, 0⟩, true)]).imageRegCount = 2 := by
    simp only [runInits, List.foldl_cons, List.foldl_nil, initStep,
      initialAdapterState]
    rw [hw]
    norm_num [selectLevel]
    rw [hw]
    norm_num
  exact ⟨h, by rw [h]; decide⟩

/-- Claim C2 (amended): the video-proxy route, guarded by the
`_videoProxySetup` flag, is registered at most once for the process
lifetime over any sequence of `init` calls; the image-proxy route is
unguarded and is registered once per *executed* initialization pass (a
pass runs when no client exists or `force` is set, and reaches
registration exactly when version negotiation succeeds), so a forced
re-initialization after a success registers the image route again; a
non-forced `init` after any earlier pass is a no-op. -/
theorem C2_proxy_registration :
    (∀ calls : List ((ApiLevel → ProbeResult) × Bool),
      (runInits calls).videoRegCount ≤ 1) ∧
    (∀ (probe : ApiLevel → ProbeResult) (force : Bool) (s : AdapterState)
      (lvl : ApiLevel) (v : VersionTriple),
      (s.httpSet = false ∨ force = true) →
      walkMut probe s.apiLevel = (lvl, some v) → v.major > -1 →
      (initStep probe force s).1.imageRegCount = s.imageRegCount + 1) ∧
    (∀ (probe : ApiLevel → ProbeResult) (s : AdapterState),
      s.httpSet = true → initStep probe false s = (s, true)) := by
  refine ⟨?_, ?_, ?_⟩
  · intro calls
    have h := runInits_videoInv calls
    unfold videoInv at h
    rw [h]
    split <;> decide
  · intro probe force s lvl v hrun hwalk hmaj
    simp only [initStep, if_pos hrun, hwalk, if_pos hmaj]
    split <;> rfl
  · intro probe s h
    simp [initStep, h]

/-- Witness for C2: the memoized-skip clause at a concrete state. -/
theorem C2_proxy_registration_witness :
    initStep (fun _ => ProbeResult.exn) false ⟨true, .v1_133, true, 1, 1⟩ =
      ((⟨true, .v1_133, true, 1, 1⟩ : AdapterState), true) :=
  C2_proxy_registration.2.2 (fun _ => ProbeResult.exn)
    ⟨true, .v1_133, true, 1, 1⟩ rfl

/-! ## Claim C6: anniversary requests -/

/-- The per-year request record the anniversary loop builds from the
month/day window `(sm, sd)`–`(em, ed)`. -/
def annivReqFor (querySize : Option Int) (query : JObj) (sm sd em ed : Int)
    (year : Int) : AnnivRequest :=
  { year := year,
    body := annivBody query querySize
      (isoDateStr (normDate year sm sd) ++ "T00:00:00.000Z")
      (isoDateStr (normDate
        (if sm > em ∨ (sm = em ∧ sd > ed) then year + 1 else year) em ed)
        ++ "T23:59:59.999Z") }

/-- The year list an anniversary data payload contributes. -/
def yearData {α : Type} (fetch : Int → FetchResult (List α)) (y : Int) :
    List α :=
  match fetch y with
  | .ok status data => if status = 200 then data else []
  | .exn => []

/-- Length of the ascending year loop. -/
theorem intRange_length (a b : Int) (h : a ≤ b) :
    ((intRange a b).length : Int) = b - a + 1 := by
  unfold intRange
  rw [List.length_map, List.length_range]
  omega

/-- The anniversary fold over an arbitrary list of years, characterized. -/
theorem annivFold {α : Type} (fetch : Int → FetchResult (List α))
    (querySize : Option Int) (query : JObj) (sm sd em ed : Int)
    (ys : List Int) (acc : List AnnivRequest × List α) :
    ys.foldl
      (fun acc year =>
        let searchEndYear :=
          if sm > em ∨ (sm = em ∧ sd > ed) then year + 1 else year
        let yStart := normDate year sm sd
        let yEnd := normDate searchEndYear em ed
        let body := annivBody query querySize
          (isoDateStr yStart ++ "T00:00:00.000Z")
          (isoDateStr yEnd ++ "T23:59:59.999Z")
        let reqs := acc.1 ++ [{ year := year, body := body }]
        match fetch year with
        | .ok status data =>
          if status = 200 then (reqs, acc.2 ++ data) else (reqs, acc.2)
        | .exn => (reqs, acc.2))
      acc =
    (acc.1 ++ ys.map (annivReqFor querySize query sm sd em ed),
      acc.2 ++ ys.flatMap (yearData fetch)) := by
  induction ys generalizing acc with
  | nil => simp
  | cons y ys ih =>
    rw [List.foldl_cons, ih, List.map_cons, List.flatMap_cons]
    unfold yearData annivReqFor
    cases h : fetch y with
    | ok s d => by_cases hs : s = 200 <;> simp [h, hs, List.append_assoc]
    | exn => simp [h]

/-- Claim C6: for every `startYear ≤ endYear` the anniversary fetch issues
exactly `endYear - startYear + 1` random-search requests, one per year `Y`
ascending; each carries `takenAfter` equal to the window start date
(`today - datesBack`) projected onto `Y` at `00:00:00.000Z` and
`takenBefore` equal to the window end date (`today + datesForward`) at
`23:59:59.999Z`, whose year is `Y+1` exactly when the back-date's month/day
sorts after the forward-date's; per-year failures are skipped while other
years' results are concatenated in year order. (JS `Date` is modelled in
UTC.) -/
theorem C6_anniversary_requests (α : Type) (today : CivilDate)
    (fetch : Int → FetchResult (List α)) (datesBack datesForward : Int)
    (startYear endYear : Int) (querySize : Option Int) (query : JObj)
    (hy : startYear ≤ endYear) :
    (anniversarySearchAssets today fetch datesBack datesForward startYear
        endYear querySize query).1.map AnnivRequest.year =
      intRange startYear endYear ∧
    ((anniversarySearchAssets today fetch datesBack datesForward startYear
        endYear querySize query).1.length : Int) = endYear - startYear + 1 ∧
    (∀ r ∈ (anniversarySearchAssets today fetch datesBack datesForward
        startYear endYear querySize query).1,
      jsObjGet r.body "takenAfter" =
        some (.str (isoDateStr (normDate r.year (addDays today (-datesBack)).month
          (addDays today (-datesBack)).day) ++ "T00:00:00.000Z")) ∧
      jsObjGet r.body "takenBefore" =
        some (.str (isoDateStr (normDate
          (if (addDays today (-datesBack)).month > (addDays today datesForward).month
            ∨ ((addDays today (-datesBack)).month = (addDays today datesForward).month
              ∧ (addDays today (-datesBack)).day > (addDays today datesForward).day)
          then r.year + 1 else r.year)
          (addDays today datesForward).month (addDays today datesForward).day)
          ++ "T23:59:59.999Z"))) ∧
    (anniversarySearchAssets today fetch datesBack datesForward startYear
        endYear querySize query).2 =
      (intRange startYear endYear).flatMap (yearData fetch) := by
  have hrun : anniversarySearchAssets today fetch datesBack datesForward
      startYear endYear querySize query =
      ((intRange startYear endYear).map
        (annivReqFor querySize query (addDays today (-datesBack)).month
          (addDays today (-datesBack)).day (addDays today datesForward).month
          (addDays today datesForward).day),
        (intRange startYear endYear).flatMap (yearData fetch)) := by
    unfold anniversarySearchAssets
    rw [annivFold]
    simp
  refine ⟨?_, ?_, ?_, ?_⟩
  · rw [hrun]
    show (List.map _ (intRange startYear endYear)).map AnnivRequest.year = _
    rw [List.map_map]
    have hcomp : (AnnivRequest.year ∘ annivReqFor querySize query
        (addDays today (-datesBack)).month (addDays today (-datesBack)).day
        (addDays today datesForward).month (addDays today datesForward).day) =
        fun y => y := rfl
    rw [hcomp]
    exact List.map_id' _
  · rw [hrun]
    show ((List.map _ (intRange startYear endYear)).length : Int) = _
    rw [List.length_map]
    exact intRange_length _ _ hy
  · intro r hr
    rw [hrun] at hr
    simp only [List.mem_map] at hr
    obtain ⟨y, _, rfl⟩ := hr
    unfold annivReqFor
    constructor
    · unfold annivBody
      rw [jsObjGet_append]
      simp [jsObjGet]
    · unfold annivBody
      rw [jsObjGet_append]
      simp [jsObjGet]
  · rw [hrun]

/-- Witness for C6: two years, 2020 and 2021, with a window that crosses
the year boundary (today 2024-01-02, three days back, three days forward)
issue exactly two requests. -/
theorem C6_anniversary_requests_witness :
    ((anniversarySearchAssets ⟨2024, 1, 2⟩
        (fun _ => FetchResult.exn : Int → FetchResult (List Nat))
        3 3 2020 2021 (some 50) []).1.length : Int) = 2021 - 2020 + 1 :=
  (C6_anniversary_requests Nat ⟨2024, 1, 2⟩
    (fun _ => FetchResult.exn : Int → FetchResult (List Nat))
    3 3 2020 2021 (some 50) [] (by decide)).2.1

/-! ## Claim C7: the sort step and the descending flag -/

theorem jsLeChars_total : ∀ as bs : List Char,
    (jsLeChars as bs || jsLeChars bs as) = true
  | [], bs => by simp [jsLeChars]
  | a :: as, [] => by simp [jsLeChars]
  | a :: as, b :: bs => by
    by_cases h : a = b
    · subst h
      simp only [jsLeChars, if_pos rfl]
      exact jsLeChars_total as bs
    · have h' : b ≠ a := fun hb => h hb.symm
      simp only [jsLeChars, if_neg h, if_neg h']
      rcases lt_or_gt_of_ne h with hlt | hgt
      · simp [hlt]
      · simp [hgt]

theorem jsLeChars_trans : ∀ as bs cs : List Char,
    jsLeChars as bs = true → jsLeChars bs cs = true → jsLeChars as cs = true
  | [], _, _, _, _ => rfl
  | _ :: _, [], _, h1, _ => by simp [jsLeChars] at h1
  | _ :: _, _ :: _, [], _, h2 => by simp [jsLeChars] at h2
  | a :: as, b :: bs, c :: cs, h1, h2 => by
    by_cases hab : a = b
    · subst hab
      simp only [jsLeChars, if_pos rfl] at h1
      by_cases hac : a = c
      · subst hac
        simp only [jsLeChars, if_pos rfl] at h2 ⊢
        exact jsLeChars_trans as bs cs h1 h2
      · simp only [jsLeChars, if_neg hac] at h2 ⊢
        exact h2
    · simp only [jsLeChars, if_neg hab, decide_eq_true_eq] at h1
      by_cases hbc : b = c
      · subst hbc
        simp only [jsLeChars, if_neg hab, decide_eq_true_eq, h1]
      · simp only [jsLeChars, if_neg hbc, decide_eq_true_eq] at h2
        have hac : a < c := lt_trans h1 h2
        simp only [jsLeChars, if_neg (ne_of_lt hac), decide_eq_true_eq]
        exact hac

/-- `sortByKey` produces a list that is pairwise ascending in the sort
key's string value. -/
theorem sortByKey_sorted (l : List TileMedia) (key : String) :
    (sortByKey l key).Pairwise
      (fun a b => jsStrLe (keyOf a key) (keyOf b key) = true) := by
  unfold sortByKey
  have h := @List.sorted_mergeSort TileMedia
    (fun a b => jsStrLe (keyOf a key) (keyOf b key))
    (fun a b c h1 h2 => jsLeChars_trans _ _ _ h1 h2)
    (fun a b => jsLeChars_total _ _)
    l
  exact h.imp fun hb => hb

theorem cons_set_perm {α : Type} :
    ∀ (t : List α) (k : Nat) (a b : α), t[k]? = some b →
      (b :: t.set k a).Perm (a :: t)
  | [], _, _, _, h => by simp at h
  | c :: t, 0, a, b, h => by
    simp only [List.getElem?_cons_zero, Option.some.injEq] at h
    subst h
    exact List.Perm.swap a c t
  | c :: t, k + 1, a, b, h => by
    simp only [List.getElem?_cons_succ] at h
    have ih := cons_set_perm t k a b h
    show (b :: c :: t.set k a).Perm (a :: c :: t)
    exact (List.Perm.swap c b _).trans
      ((List.Perm.cons c ih).trans (List.Perm.swap a c t))

theorem swapElems_perm {α : Type} :
    ∀ (l : List α) (i j : Nat), (swapElems l i j).Perm l
  | [], _, _ => by simp [swapElems]
  | c :: t, 0, 0 => by simp [swapElems]
  | c :: t, 0, j + 1 => by
    unfold swapElems
    simp only [List.getElem?_cons_zero, List.getElem?_cons_succ]
    cases hj : t[j]? with
    | none => exact List.Perm.refl _
    | some b =>
      show (b :: t.set j c).Perm (c :: t)
      exact cons_set_perm t j c b hj
  | c :: t, i + 1, 0 => by
    unfold swapElems
    simp only [List.getElem?_cons_zero, List.getElem?_cons_succ]
    cases hi : t[i]? with
    | none => exact List.Perm.refl _
    | some a =>
      show (a :: t.set i c).Perm (c :: t)
      exact cons_set_perm t i c a hi
  | c :: t, i + 1, j + 1 => by
    unfold swapElems
    simp only [List.getElem?_cons_succ]
    cases hi : t[i]? with
    | none => exact List.Perm.refl _
    | some a =>
      cases hj : t[j]? with
      | none => exact List.Perm.refl _
      | some b =>
        show (c :: (t.set i b).set j a).Perm (c :: t)
        refine List.Perm.cons c ?_
        have hrec := swapElems_perm t i j
        unfold swapElems at hrec
        rw [hi, hj] at hrec
        exact hrec

theorem shuffleGo_perm {α : Type} (rand : Nat → Nat) :
    ∀ (i : Nat) (l : List α), (shuffleGo rand l i).Perm l
  | 0, l => List.Perm.refl l
  | i + 1, l =>
    (shuffleGo_perm rand i _).trans (swapElems_perm l (i + 1) _)

/-- Fisher–Yates returns a permutation of its input. -/
theorem shuffle_perm {α : Type} (rand : Nat → Nat) (l : List α) :
    (shuffle rand l).Perm l :=
  shuffleGo_perm rand _ l

/-- Claim C7: `name` sorts ascending lexicographically by title (titles
`b, a, c` yield `a, b, c`); `created`/`modified`/`taken` sort by the
taken-at string; `none` and any unrecognized key keep retrieval order; for
every key, the descending flag makes the final list the reverse of that
key's ascending result — including `none` (reverses retrieval order) and
`random` (whose reversed shuffle is still a permutation of the input). -/
theorem C7_sort_step :
    (applySort "name" false (fun _ => 0)
      [⟨"image", "s", none, "b", none, none⟩, ⟨"image", "s", none, "a", none, none⟩,
       ⟨"image", "s", none, "c", none, none⟩] =
      [⟨"image", "s", none, "a", none, none⟩, ⟨"image", "s", none, "b", none, none⟩,
       ⟨"image", "s", none, "c", none, none⟩]) ∧
    (∀ (rand : Nat → Nat) (tiles : List TileMedia),
      (applySort "name" false rand tiles).Pairwise
        (fun x y => jsStrLe x.title y.title = true)) ∧
    (∀ key, key = "created" ∨ key = "modified" ∨ key = "taken" →
      ∀ (rand : Nat → Nat) (tiles : List TileMedia),
      (applySort key false rand tiles).Pairwise
        (fun x y => jsStrLe (keyOf x "takenAt") (keyOf y "takenAt") = true)) ∧
    (∀ (rand : Nat → Nat) (tiles : List TileMedia),
      applySort "none" false rand tiles = tiles) ∧
    (∀ key, key ≠ "name" → key ≠ "created" → key ≠ "modified" → key ≠ "taken" →
      key ≠ "random" → ∀ (rand : Nat → Nat) (tiles : List TileMedia),
      applySort key false rand tiles = tiles) ∧
    (∀ (key : String) (rand : Nat → Nat) (tiles : List TileMedia),
      applySort key true rand tiles = (applySort key false rand tiles).reverse) ∧
    (∀ (rand : Nat → Nat) (tiles : List TileMedia),
      (applySort "random" true rand tiles).Perm tiles) := by
  refine ⟨?_, ?_, ?_, ?_, ?_, ?_, ?_⟩
  · simp [applySort, sortStep, sortByKey, List.mergeSort, List.splitInTwo,
      keyOf, List.merge, jsStrLe, jsLeChars]
  · intro rand tiles
    have h : applySort "name" false rand tiles = sortByKey tiles "title" := by
      simp [applySort, sortStep]
    rw [h]
    exact (sortByKey_sorted tiles "title").imp fun hb => hb
  · intro key hk rand tiles
    have h : applySort key false rand tiles = sortByKey tiles "takenAt" := by
      rcases hk with h | h | h <;> subst h <;> simp [applySort, sortStep]
    rw [h]
    exact sortByKey_sorted tiles "takenAt"
  · intro rand tiles
    simp [applySort, sortStep]
  · intro key h1 h2 h3 h4 h5 rand tiles
    simp [applySort, sortStep, h1, h2, h3, h4, h5]
  · intro key rand tiles
    simp [applySort]
  · intro rand tiles
    have h : applySort "random" true rand tiles = (shuffle rand tiles).reverse := by
      simp [applySort, sortStep]
    rw [h]
    exact (List.reverse_perm _).trans (shuffle_perm rand tiles)

/-- Witness for C7: an unrecognized sort key keeps retrieval order. -/
theorem C7_sort_step_witness :
    applySort "foo" false (fun _ => 0)
      [⟨"image", "s", none, "z", none, none⟩] =
      [⟨"image", "s", none, "z", none, none⟩] :=
  C7_sort_step.2.2.2.2.1 "foo" (by decide) (by decide) (by decide) (by decide)
    (by decide) (fun _ => 0) [⟨"image", "s", none, "z", none, none⟩]

/-! ## Claims C1 and C3: version negotiation -/

/-- The walk stops at a level exactly when it answers 200 (any body) or
throws. -/
def stopsAt (probe : ApiLevel → ProbeResult) (l : ApiLevel) : Bool :=
  match probe l with
  | .ok status _ => status = 200
  | .exn => true

/-- When the walk obtains a body, the level it stopped at answered 200
with exactly that body. -/
theorem walkMut_stop200 (probe : ApiLevel → ProbeResult) (l L : ApiLevel)
    (w : VersionTriple) (h : walkMut probe l = (L, some w)) :
    probe L = .ok 200 w := by
  rw [walkMut.eq_def] at h
  split at h
  · rename_i status data heq
    split at h
    · rename_i hs
      simp only [Prod.mk.injEq, Option.some.injEq] at h
      obtain ⟨rfl, rfl⟩ := h
      rw [heq, hs]
    · split at h
      · rename_i p hp
        exact walkMut_stop200 probe p L w h
      · simp at h
  · simp at h
termination_by levelRank l
decreasing_by exact previousVersion_rank (by assumption)

/-- A level that answers 200 stops the walk immediately. -/
theorem walkMut_self200 (probe : ApiLevel → ProbeResult) (l : ApiLevel)
    (d : VersionTriple) (h : probe l = .ok 200 d) :
    walkMut probe l = (l, some d) := by
  rw [walkMut.eq_def, h]
  simp

/-- Negotiation succeeds exactly when the first *stopping* level of the
fallback chain (first 200 answer or first exception) is a 200 answer with
a parsable body. -/
theorem negotiate_ok_iff (probe : ApiLevel → ProbeResult) (start : ApiLevel) :
    (∃ l, negotiate probe start = .ok l) ↔
    (∃ L v, (chainFrom start).find? (stopsAt probe) = some L ∧
      probe L = .ok 200 v ∧ v.major > -1) := by
  rw [chainFrom_head start]
  cases hp : probe start with
  | ok status data =>
    by_cases hs : status = 200
    · subst hs
      have hw : walkMut probe start = (start, some data) :=
        walkMut_self200 probe start data hp
      have hstop : stopsAt probe start = true := by simp [stopsAt, hp]
      have hneg : negotiate probe start =
          if data.major > -1 then .ok (selectLevel start data)
          else .error () := by
        unfold negotiate
        rw [hw]
      rw [List.find?_cons_of_pos _ hstop, hneg]
      constructor
      · intro ⟨l, hl⟩
        by_cases hm : data.major > -1
        · exact ⟨start, data, rfl, hp, hm⟩
        · rw [if_neg hm] at hl
          cases hl
      · intro ⟨L, v, hL, hpv, hm⟩
        obtain rfl : start = L := by cases hL; rfl
        rw [hp] at hpv
        obtain rfl : data = v := by cases hpv; rfl
        rw [if_pos hm]
        exact ⟨selectLevel start data, rfl⟩
    · have hstop : stopsAt probe start = false := by
        simp only [stopsAt, hp, decide_eq_false_iff_not]
        exact hs
      rw [List.find?_cons_of_neg _ (by simp [hstop])]
      cases hprev : previousVersion start with
      | some p =>
        have hw : walkMut probe start = walkMut probe p := by
          rw [walkMut.eq_def, hp]
          simp only [if_neg hs]
          split
          · rename_i p' heq
            rw [hprev] at heq
            cases heq
            rfl
          · rename_i heq
            rw [hprev] at heq
            cases heq
        have hneg : negotiate probe start = negotiate probe p := by
          unfold negotiate
          rw [hw]
        rw [hneg]
        exact negotiate_ok_iff probe p
      | none =>
        have hw : walkMut probe start = (start, none) := by
          rw [walkMut.eq_def, hp]
          simp only [if_neg hs]
          split
          · rename_i p' heq
            rw [hprev] at heq
            cases heq
          · rfl
        have hneg : negotiate probe start = .error () := by
          unfold negotiate
          rw [hw]
        rw [hneg]
        constructor
        · intro ⟨l, hl⟩
          cases hl
        · intro ⟨L, v, hL, _⟩
          cases hL
  | exn =>
    have hw : walkMut probe start = (start, none) := by
      rw [walkMut.eq_def, hp]
    have hstop : stopsAt probe start = true := by simp [stopsAt, hp]
    have hneg : negotiate probe start = .error () := by
      unfold negotiate
      rw [hw]
    rw [List.find?_cons_of_pos _ hstop, hneg]
    constructor
    · intro ⟨l, hl⟩
      cases hl
    · intro ⟨L, v, hL, hpv, _⟩
      obtain rfl : start = L := by cases hL; rfl
      rw [hp] at hpv
      cases hpv
termination_by levelRank start
decreasing_by exact previousVersion_rank (by assumption)

/-- Probe refuting C3: the newest level answers 200 with an *unparsable*
body (`major = -1`), masking the older level that would answer 200 with a
parsable version. -/
def probeC3 : ApiLevel → ProbeResult
  | .v1_133 => .ok 200 ⟨-1, -1, -1⟩
  | .v1_118 => .ok 200 ⟨1, 120, 0⟩
  | _ => .ok 404 ⟨0, 0, 0⟩

/-- Claim C3, counterexample: `init` rejects although a server-version
endpoint in the fallback chain (the `v1_118` one) yields a 200 response
with a parsable version — the walk stops at the first 200 response even
when its body is unparsable, so "rejects exactly when no endpoint in the
chain yields a parsable 200" is false. -/
theorem C3_counterexample :
    negotiate probeC3 .v1_133 = .error () ∧
    chainHasParsable probeC3 .v1_133 = true := by
  constructor
  · have hw : walkMut probeC3 .v1_133 = (.v1_133, some ⟨-1, -1, -1⟩) :=
      walkMut_self200 probeC3 _ _ rfl
    unfold negotiate
    rw [hw]
    rfl
  · decide

/-- Claim C3 (amended): `init` rejects exactly when the probe walk — which
stops at the first 200 response (parsable or not) and aborts at the first
thrown request — does not end in a 200 response with `major > -1`; and
every fetch-mode operation resolves with a (possibly empty) list rather
than throwing: on all-failing transports (non-200 or thrown) each returns
`[]`. -/
theorem C3_error_boundary :
    (∀ (probe : ApiLevel → ProbeResult) (start : ApiLevel),
      negotiate probe start = .error () ↔
      ¬(∃ L v, (chainFrom start).find? (stopsAt probe) = some L ∧
        probe L = .ok 200 v ∧ v.major > -1)) ∧
    (∀ (α : Type) (resp : FetchResult (List α)),
      resp.isFail = true → searchAssets resp = []) ∧
    (∀ (α : Type) (resp : FetchResult (List α)),
      resp.isFail = true → randomSearchAssets resp = []) ∧
    (∀ (α : Type) (fetch : Nat → FetchResult (List (List α))) (numDays : Nat),
      (∀ i, (fetch i).isFail = true) → getMemoryLaneAssets fetch numDays = []) ∧
    (∀ (α : Type) (today : CivilDate) (fetch : Int → FetchResult (List α))
      (db df sy ey : Int) (qs : Option Int) (q : JObj),
      (∀ y, (fetch y).isFail = true) →
      (anniversarySearchAssets today fetch db df sy ey qs q).2 = []) ∧
    (∀ (resp : FetchResult (List (String × String))) (names : List String),
      resp.isFail = true → findAlbumIds resp names = []) ∧
    (∀ (α : Type) (fetchAlbum : String → FetchResult (List α))
      (ids : List String),
      (∀ id, (fetchAlbum id).isFail = true) →
      getAlbumAssetsForAlbumIds fetchAlbum ids = []) := by
  refine ⟨?_, ?_, ?_, ?_, ?_, ?_, ?_⟩
  · intro probe start
    rw [← negotiate_ok_iff probe start]
    cases hn : negotiate probe start with
    | error u =>
      cases u
      simp
    | ok l =>
      simp
  · intro α resp h
    cases resp with
    | ok status data =>
      simp only [FetchResult.isFail, ne_eq, decide_eq_true_eq] at h
      simp [searchAssets, h]
    | exn => rfl
  · intro α resp h
    cases resp with
    | ok status data =>
      simp only [FetchResult.isFail, ne_eq, decide_eq_true_eq] at h
      simp [randomSearchAssets, h]
    | exn => rfl
  · intro α fetch numDays h
    unfold getMemoryLaneAssets getMemoryLaneRun
    suffices hgen : ∀ (l : List Nat) (acc : List Nat × List α),
        (l.foldl
          (fun acc i =>
            let requests := acc.1 ++ [i]
            match fetch i with
            | .ok status groups =>
              if status = 200 then
                (requests, groups.foldl (fun imgs g => g ++ imgs) acc.2)
              else (requests, acc.2)
            | .exn => (requests, acc.2))
          acc).2 = acc.2 by
      exact hgen (List.range numDays) ([], [])
    intro l
    induction l with
    | nil => intro acc; rfl
    | cons i is ih =>
      intro acc
      rw [List.foldl_cons]
      cases hf : fetch i with
      | ok status groups =>
        have hs := h i
        rw [hf] at hs
        simp only [FetchResult.isFail, ne_eq, decide_eq_true_eq] at hs
        simp only [hf, if_neg hs]
        exact ih _
      | exn =>
        simp only [hf]
        exact ih _
  · intro α today fetch db df sy ey qs q h
    unfold anniversarySearchAssets
    suffices hgen : ∀ (ys : List Int) (acc : List AnnivRequest × List α),
        (ys.foldl
          (fun acc year =>
            let searchEndYear :=
              if (addDays today (-db)).month > (addDays today df).month
                ∨ ((addDays today (-db)).month = (addDays today df).month
                  ∧ (addDays today (-db)).day > (addDays today df).day)
              then year + 1 else year
            let yStart := normDate year (addDays today (-db)).month
              (addDays today (-db)).day
            let yEnd := normDate searchEndYear (addDays today df).month
              (addDays today df).day
            let body := annivBody q qs
              (isoDateStr yStart ++ "T00:00:00.000Z")
              (isoDateStr yEnd ++ "T23:59:59.999Z")
            let reqs := acc.1 ++ [{ year := year, body := body }]
            match fetch year with
            | .ok status data =>
              if status = 200 then (reqs, acc.2 ++ data) else (reqs, acc.2)
            | .exn => (reqs, acc.2))
          acc).2 = acc.2 by
      exact hgen (intRange sy ey) ([], [])
    intro ys
    induction ys with
    | nil => intro acc; rfl
    | cons y ys ih =>
      intro acc
      rw [List.foldl_cons]
      cases hf : fetch y with
      | ok status data =>
        have hs := h y
        rw [hf] at hs
        simp only [FetchResult.isFail, ne_eq, decide_eq_true_eq] at hs
        simp only [hf, if_neg hs]
        exact ih _
      | exn =>
        simp only [hf]
        exact ih _
  · intro resp names h
    rw [findAlbumIds_eq_filterMap]
    have hmap : getAlbumNameToIdMap resp = [] := by
      cases resp with
      | ok status data =>
        simp only [FetchResult.isFail, ne_eq, decide_eq_true_eq] at h
        simp [getAlbumNameToIdMap, h]
      | exn => rfl
    rw [hmap]
    induction names with
    | nil => rfl
    | cons n ns ih => simpa [albumMapGet] using ih
  · intro α fetchAlbum ids h
    unfold getAlbumAssetsForAlbumIds
    suffices hgen : ∀ (l : List String) (acc : List α),
        (l.foldl
          (fun imgs id =>
            let current := getAlbumAssets (fetchAlbum id)
            if current.length ≠ 0 then imgs ++ current else imgs)
          acc) = acc by
      exact hgen ids []
    intro l
    induction l with
    | nil => intro acc; rfl
    | cons i is ih =>
      intro acc
      rw [List.foldl_cons]
      have hcur : getAlbumAssets (fetchAlbum i) = [] := by
        cases hf : fetchAlbum i with
        | ok status data =>
          have hs := h i
          rw [hf] at hs
          simp only [FetchResult.isFail, ne_eq, decide_eq_true_eq] at hs
          simp [getAlbumAssets, hs]
        | exn => rfl
      simp only [hcur, List.length_nil, ne_eq, not_true_eq_false, ite_false,
        if_neg]
      exact ih _

/-- Witness for C3: a single all-failing search resolves with the empty
list. -/
theorem C3_error_boundary_witness :
    searchAssets (FetchResult.exn : FetchResult (List Nat)) = [] :=
  C3_error_boundary.2.1 Nat FetchResult.exn (by decide)

/-- A probe whose every 200 answer carries the same version body — the
"same triple" hypothesis of claim C1 (a real server reports one version). -/
def versionConsistent (probe : ApiLevel → ProbeResult) (v : VersionTriple) : Prop :=
  ∀ (l : ApiLevel) (s : Nat) (d : VersionTriple), probe l = .ok s d → s = 200 → d = v

/-- Probe refuting C1: the newest level's endpoint answers 404, so the walk
falls back to `v1_118`, which answers 200 with version 1.120.0. -/
def probeC1 : ApiLevel → ProbeResult
  | .v1_133 => .ok 404 ⟨0, 0, 0⟩
  | .v1_118 => .ok 200 ⟨1, 120, 0⟩
  | _ => .exn

/-- Claim C1, counterexample: the triple (1, 120, 0) — major 1, minor ≥ 118
— resolves to the level that answered the probe (`v1_118`), not to the
newest level `v1_133`; the resolved level is *not* independent of which
ApiLevel answered. -/
theorem C1_counterexample :
    negotiate probeC1 .v1_133 = .ok .v1_118 ∧
    ApiLevel.v1_118 ≠ ApiLevel.v1_133 := by
  constructor
  · have h133 : probeC1 .v1_133 = .ok 404 ⟨0, 0, 0⟩ := rfl
    have hw : walkMut probeC1 .v1_133 = (.v1_118, some ⟨1, 120, 0⟩) := by
      rw [walkMut.eq_def, h133]
      simp only [show (404 : Nat) ≠ 200 by decide, if_neg, previousVersion]
      exact walkMut_self200 probeC1 .v1_118 ⟨1, 120, 0⟩ rfl
    unfold negotiate
    rw [hw]
    rfl
  · decide

/-- Claim C1 (amended): for a version-consistent probe whose negotiation
from the newest level succeeds with triple `v` and resolved level `l`:
major 1 with minor in [106,118) resolves to `v1_106` and minor < 106 to
`v1_94` regardless of which level answered; every *other* parsable triple
keeps the level that answered the probe (which is `v1_133` only when the
newest endpoint itself answered); and repeated negotiation (restarting
from the resolved level, as the mutated `apiLevel` makes the code do) that
succeeds yields the same level again. -/
theorem C1_level_selection (probe : ApiLevel → ProbeResult) (v : VersionTriple)
    (l l' : ApiLevel) (hcons : versionConsistent probe v)
    (h1 : negotiate probe .v1_133 = .ok l) :
    (v.major = 1 → 106 ≤ v.minor → v.minor < 118 → l = .v1_106) ∧
    (v.major = 1 → v.minor < 106 → l = .v1_94) ∧
    (∀ (a : ApiLevel) (w : VersionTriple), ¬(w.major = 1 ∧ w.minor < 118) →
      selectLevel a w = a) ∧
    (negotiate probe l = .ok l' → l' = l) := by
  unfold negotiate at h1
  rcases hw : walkMut probe .v1_133 with ⟨L, o⟩
  rw [hw] at h1
  cases o with
  | none => cases h1
  | some w =>
    change (if w.major > -1 then Except.ok (selectLevel L w)
      else Except.error ()) = Except.ok l at h1
    by_cases hm : w.major > -1
    · rw [if_pos hm] at h1
      have hl : l = selectLevel L w := by cases h1; rfl
      have hpL : probe L = .ok 200 w := walkMut_stop200 probe _ _ _ hw
      have hv : w = v := hcons L 200 w hpL rfl
      rw [hv] at hl hpL
      refine ⟨?_, ?_, ?_, ?_⟩
      · intro hmj hlo hhi
        rw [hl]
        unfold selectLevel
        rw [if_pos hmj, if_pos ⟨hlo, hhi⟩]
      · intro hmj hlo
        rw [hl]
        unfold selectLevel
        rw [if_pos hmj, if_neg (by omega), if_pos hlo]
      · intro a x hx
        unfold selectLevel
        by_cases hxm : x.major = 1
        · rw [if_pos hxm]
          have hge : ¬x.minor < 118 := fun hlt => hx ⟨hxm, hlt⟩
          rw [if_neg (by omega), if_neg (by omega)]
        · rw [if_neg hxm]
      · intro h2
        unfold negotiate at h2
        rcases hw2 : walkMut probe l with ⟨L2, o2⟩
        rw [hw2] at h2
        cases o2 with
        | none => cases h2
        | some w2 =>
          change (if w2.major > -1 then Except.ok (selectLevel L2 w2)
            else Except.error ()) = Except.ok l' at h2
          by_cases hm2 : w2.major > -1
          · rw [if_pos hm2] at h2
            have hl2 : l' = selectLevel L2 w2 := by cases h2; rfl
            have hpL2 : probe L2 = .ok 200 w2 := walkMut_stop200 probe _ _ _ hw2
            have hv2 : w2 = v := hcons L2 200 w2 hpL2 rfl
            rw [hv2] at hl2
            by_cases hc1 : v.major = 1 ∧ 106 ≤ v.minor ∧ v.minor < 118
            · rw [hl2, hl]
              unfold selectLevel
              rw [if_pos hc1.1, if_pos ⟨hc1.2.1, hc1.2.2⟩,
                if_pos hc1.1, if_pos ⟨hc1.2.1, hc1.2.2⟩]
            · by_cases hc2 : v.major = 1 ∧ v.minor < 106
              · rw [hl2, hl]
                unfold selectLevel
                rw [if_pos hc2.1, if_neg (by omega), if_pos hc2.2,
                  if_pos hc2.1, if_neg (by omega), if_pos hc2.2]
              · have hkeep : ∀ a : ApiLevel, selectLevel a v = a := by
                  intro a
                  unfold selectLevel
                  by_cases hxm : v.major = 1
                  · rw [if_pos hxm]
                    have h106 : ¬(106 ≤ v.minor ∧ v.minor < 118) :=
                      fun hr => hc1 ⟨hxm, hr.1, hr.2⟩
                    have hlo : ¬v.minor < 106 := fun hr => hc2 ⟨hxm, hr⟩
                    rw [if_neg h106, if_neg hlo]
                  · rw [if_neg hxm]
                have hlL : l = L := by rw [hl, hkeep L]
                have hself : walkMut probe l = (l, some v) := by
                  rw [hlL]
                  exact walkMut_self200 probe L v hpL
                rw [hself] at hw2
                obtain rfl : l = L2 := by cases hw2; rfl
                rw [hl2, hkeep l]
          · rw [if_neg hm2] at h2
            cases h2
    · rw [if_neg hm] at h1
      cases h1

/-- Witness for C1: a consistent probe reporting 1.110.x everywhere
resolves to `v1_106`, and re-negotiating from `v1_106` stays at `v1_106`. -/
theorem C1_level_selection_witness :
    ApiLevel.v1_106 = ApiLevel.v1_106 :=
  (C1_level_selection (fun _ => .ok 200 ⟨1, 110, 0⟩) ⟨1, 110, 0⟩
    .v1_106 .v1_106
    (by
      intro l s d h _
      cases h
      rfl)
    (by
      have hw : walkMut (fun _ => ProbeResult.ok 200 ⟨1, 110, 0⟩) .v1_133 =
          (.v1_133, some ⟨1, 110, 0⟩) :=
        walkMut_self200 _ _ _ rfl
      unfold negotiate
      rw [hw]
      rfl)).1 rfl (by decide) (by decide)

end ImmichTile
